import Mathlib

/-!
Shallow embedding of the frakti hyper runtime sandbox-lifecycle core
(`pkg/hyper/hyper.go`) together with the helper components it calls.

The orchestration functions (`runPodSandbox`, `stopPodSandbox`,
`podSandboxStatus`, `listPodSandbox`, `runtimeStatus`) are translated
directly from `src/pkg/hyper/hyper.go`.  The helper functions that file
calls (`parseSandboxName`, `toPodSandboxState`, `getAnnotationsFromLabels`,
`getKubeletLabels`, `inMap`, `sortByCreatedAt`, and the encoding direction
of the sandbox-name codec) live in files of the repository that are not
available here; those are modelled from the specification and carry a
doc comment saying so.

Machine integers of the source (int64 timestamps, uint32 attempt counters)
are modelled as unbounded `Int`/`Nat`; engine string→string maps are
modelled as association lists with unique keys where that matters.
-/

deriving instance DecidableEq for Except

/-- Readiness state of a sandbox, the agent's two-valued vocabulary
(`PodSandboxState_READY` / `PodSandboxState_NOTREADY` in the source). -/
inductive PodSandboxState where
  | ready
  | notReady
deriving DecidableEq

/-- Identity of one sandbox instance: name, namespace, uid and the restart
attempt counter (`kubeapi.PodSandboxMetadata`). -/
structure SandboxMetadata where
  name : String
  namespace_ : String
  uid : String
  attempt : Nat
deriving DecidableEq

/-- List-entry form of a translated sandbox (`kubeapi.PodSandbox`).  Note it
carries a labels map but no annotations view. -/
structure PodSandbox where
  id : String
  metadata : SandboxMetadata
  state : PodSandboxState
  createdAt : Int
  labels : List (String × String)
deriving DecidableEq

/-- Full status of one sandbox (`kubeapi.PodSandboxStatus`). -/
structure PodSandboxStatus where
  id : String
  metadata : SandboxMetadata
  state : PodSandboxState
  ip : String
  createdAt : Int
  labels : List (String × String)
  annotations : List (String × String)
deriving DecidableEq

/-- Listing predicate (`kubeapi.PodSandboxFilter`): three independently
optional clauses. -/
structure PodSandboxFilter where
  id : Option String
  state : Option PodSandboxState
  labelSelector : Option (List (String × String))
deriving DecidableEq

/-- Engine-side record returned by the engine's pod-list call: id, encoded
pod name, phase string, merged metadata map and a creation time in
seconds. -/
structure PodListResult where
  podID : String
  podName : String
  status : String
  labels : List (String × String)
  createdAt : Int
deriving DecidableEq

/-- Engine-side record returned by the engine's single-pod info call.  The
nested `info.Status.Phase`, `info.Status.PodIP` and `info.Spec.Labels`
fields of the source are flattened here. -/
structure PodInfo where
  podName : String
  phase : String
  podIP : List String
  labels : List (String × String)
  createdAt : Int
deriving DecidableEq

/-- Engine-facing pod specification built from a sandbox config
(the `UserPod` the source hands to `client.CreatePod`). -/
structure UserPod where
  podName : String
  labels : List (String × String)
deriving DecidableEq

/-- Agent-supplied request to create a sandbox
(`kubeapi.PodSandboxConfig`). -/
structure PodSandboxConfig where
  metadata : SandboxMetadata
  labels : List (String × String)
  annotations : List (String × String)
deriving DecidableEq

/-- One condition of the runtime status (`kubeapi.RuntimeCondition`). -/
structure RuntimeCondition where
  condType : String
  status : Bool
  reason : Option String
  message : Option String
deriving DecidableEq

/-- Runtime status (`kubeapi.RuntimeStatus`): a list of conditions. -/
structure RuntimeStatus where
  conditions : List RuntimeCondition
deriving DecidableEq

/-- Condition type string `kubeapi.RuntimeReady`. -/
def RuntimeReady : String := "RuntimeReady"

/-- Condition type string `kubeapi.NetworkReady`. -/
def NetworkReady : String := "NetworkReady"

/-- Conversion factor from the engine's second-granularity timestamps to
the agent's nanosecond contract (`secondToNano = 1e9` in the source,
an exact integer constant). -/
def secondToNano : Int := 1000000000

/-- One observable call made to the engine-client collaborator; used to
record the trace of collaborator interactions an operation performs. -/
inductive ClientCall where
  | createPodCall (userpod : UserPod)
  | startPodCall (podID : String)
  | removePodCall (podID : String)
  | stopPodCall (podID : String)
deriving DecidableEq

/-- Behaviour of the engine-client collaborator consumed by the runtime:
each operation is an arbitrary function of its arguments, so quantifying
over `HyperClient` quantifies over every collaborator behaviour.
`stopPod` returns the engine's diagnostic `(code, cause, err)` triple. -/
structure HyperClient where
  createPod : UserPod → Except String String
  startPod : String → Except String Unit
  removePod : String → Except String Unit
  stopPod : String → Int × String × Option String
  getPodInfo : String → Except String PodInfo
  getPodList : Except String (List PodListResult)
  getVersion : Except String (String × String)

/-- Splits a character list at every occurrence of the separator, keeping
empty fields, as `strings.Split` does (helper for the name codec). -/
def splitChar (sep : Char) : List Char → List (List Char)
  | [] => [[]]
  | c :: cs =>
    let r := splitChar sep cs
    if c = sep then [] :: r else
      match r with
      | [] => [[c]]
      | hd :: tl => (c :: hd) :: tl

/-- Numeric value of a decimal digit character. -/
def charToDigit (c : Char) : Nat := c.toNat - 48

/-- Parses a non-empty all-digit character list as a non-negative decimal
integer; any other input fails (helper for the name codec, mirroring a
strict `strconv.ParseUint`). -/
def parseDecimal (cs : List Char) : Option Nat :=
  if cs = [] then none
  else if cs.all Char.isDigit then
    some (Nat.ofDigits 10 ((cs.map charToDigit).reverse))
  else none

/-- Decimal character rendering of a natural number, most significant
digit first. -/
def natChars (n : Nat) : List Char :=
  if n = 0 then ['0']
  else ((Nat.digits 10 n).map (fun d => Char.ofNat (d + 48))).reverse

/-- Modelled from the spec: the encoding direction of the SandboxNameCodec
(the repository's sandbox-name builder is not among the available source
files).  Produces a single token combining namespace, name, uid and the
decimal attempt counter with the fixed `'_'` field separator, per §6 of
the spec. -/
def buildSandboxName (m : SandboxMetadata) : String :=
  String.mk (m.namespace_.data ++ ('_' :: (m.name.data ++ ('_' :: (m.uid.data
    ++ ('_' :: natChars m.attempt))))))

/-- Modelled from the spec: the decoding direction of the SandboxNameCodec
(`parseSandboxName`, called by `PodSandboxStatus` and `ListPodSandbox` but
not among the available source files).  Fails when the token does not
split into exactly four fields or when the attempt field is not a
non-negative decimal integer; never drops or truncates a field. -/
def parseSandboxName (s : String) : Except String SandboxMetadata :=
  match splitChar '_' s.data with
  | [ns, n, uid, att] =>
    match parseDecimal att with
    | some a => .ok ⟨String.mk n, String.mk ns, String.mk uid, a⟩
    | none => .error ("invalid sandbox name: " ++ s)
  | _ => .error ("invalid sandbox name: " ++ s)

/-- Modelled from the spec: the StatusMapper (`toPodSandboxState`, called
by `PodSandboxStatus` and `ListPodSandbox` but not among the available
source files).  The engine phase `"running"` maps to Ready and every
other phase string maps to NotReady (§4.2, §8 of the spec). -/
def toPodSandboxState (phase : String) : PodSandboxState :=
  if phase = "running" then .ready else .notReady

/-- Modelled from the spec: the reserved key marker of the
LabelAnnotationSplitter's reserved-prefix convention (§2, §4.3). -/
def annotationMarker : String := "annotation."

/-- Tests whether a metadata-map key carries the reserved marker. -/
def hasMarker (k : String) : Bool :=
  annotationMarker.data.isPrefixOf k.data

/-- Removes the reserved marker from the front of a key. -/
def stripMarker (k : String) : String :=
  String.mk (k.data.drop annotationMarker.data.length)

/-- Modelled from the spec: the annotations direction of the
LabelAnnotationSplitter (`getAnnotationsFromLabels`, not among the
available source files).  Keys carrying the reserved marker are routed to
the annotations view with the marker stripped (§4.3). -/
def getAnnotationsFromLabels (m : List (String × String)) : List (String × String) :=
  (m.filter (fun kv => hasMarker kv.1)).map (fun kv => (stripMarker kv.1, kv.2))

/-- Modelled from the spec: the labels direction of the
LabelAnnotationSplitter (`getKubeletLabels`, not among the available
source files).  Keys not carrying the reserved marker are routed to the
labels view verbatim (§4.3). -/
def getKubeletLabels (m : List (String × String)) : List (String × String) :=
  m.filter (fun kv => !hasMarker kv.1)

/-- Modelled from the spec: the merge direction of the
LabelAnnotationSplitter (§4.3): labels pass through verbatim and each
annotation key gains the reserved marker. -/
def mergeLabels (l a : List (String × String)) : List (String × String) :=
  l ++ a.map (fun kv => (annotationMarker ++ kv.1, kv.2))

/-- Modelled from the spec: the label-subset test of the SandboxFilter
(`inMap`, not among the available source files).  Every key/value pair of
the selector must be present with an equal value in the record's labels
(§4.4). -/
def inMap (selector labels : List (String × String)) : Bool :=
  selector.all (fun kv => decide (List.lookup kv.1 labels = some kv.2))

/-- Ordering relation of the SandboxSorter: creation timestamp,
ascending. -/
def createdAtLE (a b : PodSandbox) : Prop := a.createdAt ≤ b.createdAt

instance : DecidableRel createdAtLE := fun a b => Int.decLe a.createdAt b.createdAt

instance : IsTotal PodSandbox createdAtLE := ⟨fun a b => Int.le_total a.createdAt b.createdAt⟩

instance : IsTrans PodSandbox createdAtLE := ⟨fun _ _ _ h1 h2 => le_trans h1 h2⟩

/-- Modelled from the spec: the SandboxSorter (`sortByCreatedAt`, not
among the available source files).  A stable sort by creation timestamp,
ascending (§4.5), realised as insertion sort. -/
def sortByCreatedAt (items : List PodSandbox) : List PodSandbox :=
  List.insertionSort createdAtLE items

/-- Outcome of one engine-filter check for a pod record, written exactly
as the three `continue` guards of `ListPodSandbox` in the source
(`hyper.go:199-211`): a present clause must hold, an absent clause (or a
wholly absent predicate) imposes no constraint. -/
def matchesFilter (fopt : Option PodSandboxFilter) (pod : PodListResult)
    (state : PodSandboxState) : Bool :=
  match fopt with
  | none => true
  | some f =>
    (match f.id with | none => true | some i => decide (pod.podID = i)) &&
    (match f.state with | none => true | some s => decide (state = s)) &&
    (match f.labelSelector with | none => true | some sel => inMap sel pod.labels)

/-- Translation of one engine list record into an agent-facing sandbox
entry, as assembled in `ListPodSandbox` (`hyper.go:213-227`): engine id,
decoded metadata, the record's labels map verbatim, the mapped state and
the timestamp scaled to nanoseconds. -/
def translatePod (pod : PodListResult) (meta : SandboxMetadata)
    (state : PodSandboxState) : PodSandbox :=
  { id := pod.podID
    metadata := meta
    state := state
    createdAt := pod.createdAt * secondToNano
    labels := pod.labels }

/-- Loop body of `ListPodSandbox` (`hyper.go:190-228`): walks the engine
records in order, decodes each name (failing the whole listing on the
first record whose name does not decode), drops records rejected by the
filter and accumulates the translated entries. -/
def listEntries (fopt : Option PodSandboxFilter) :
    List PodListResult → Except String (List PodSandbox)
  | [] => .ok []
  | pod :: rest =>
    match parseSandboxName pod.podName with
    | .error e => .error e
    | .ok meta =>
      if matchesFilter fopt pod (toPodSandboxState pod.status) then
        match listEntries fopt rest with
        | .error e => .error e
        | .ok items => .ok (translatePod pod meta (toPodSandboxState pod.status) :: items)
      else listEntries fopt rest

/-- Embedding of `Runtime.ListPodSandbox` (`hyper.go:182-233`): fetch the
engine pod list, translate and filter it, then sort by creation time. -/
def listPodSandbox (client : HyperClient) (fopt : Option PodSandboxFilter) :
    Except String (List PodSandbox) :=
  match client.getPodList with
  | .error e => .error e
  | .ok pods =>
    match listEntries fopt pods with
    | .error e => .error e
    | .ok items => .ok (sortByCreatedAt items)

/-- Embedding of `Runtime.PodSandboxStatus` (`hyper.go:139-179`): fetch the
engine record, map its phase, take the first IP (or empty), decode the
encoded name (failing the call if it does not decode), split the metadata
map into labels and annotations and scale the timestamp. -/
def podSandboxStatus (client : HyperClient) (podSandboxID : String) :
    Except String PodSandboxStatus :=
  match client.getPodInfo podSandboxID with
  | .error e => .error e
  | .ok info =>
    let state := toPodSandboxState info.phase
    let podIP := match info.podIP with | [] => "" | ip :: _ => ip
    match parseSandboxName info.podName with
    | .error e => .error e
    | .ok meta =>
      .ok { id := podSandboxID
            metadata := meta
            state := state
            ip := podIP
            createdAt := info.createdAt * secondToNano
            labels := getKubeletLabels info.labels
            annotations := getAnnotationsFromLabels info.labels }

/-- Embedding of `Runtime.RunPodSandbox` (`hyper.go:89-112`) together with
the trace of collaborator calls it makes.  `buildUserPod` is a parameter
(its definition is not among the available source files); on a start
failure the just-created pod is removed best-effort and the start error,
never the removal error, is returned. -/
def runPodSandbox (buildUserPod : PodSandboxConfig → Except String UserPod)
    (client : HyperClient) (config : PodSandboxConfig) :
    Except String String × List ClientCall :=
  match buildUserPod config with
  | .error e => (.error e, [])
  | .ok userpod =>
    match client.createPod userpod with
    | .error e => (.error e, [.createPodCall userpod])
    | .ok podID =>
      match client.startPod podID with
      | .error e =>
        (.error e, [.createPodCall userpod, .startPodCall podID, .removePodCall podID])
      | .ok _ => (.ok podID, [.createPodCall userpod, .startPodCall podID])

/-- Embedding of `Runtime.StopPodSandbox` (`hyper.go:116-124`) together
with the trace of collaborator calls it makes.  The engine's
`(code, cause, err)` triple is received; the code and cause are only
logged and the underlying error is returned as-is. -/
def stopPodSandbox (client : HyperClient) (podSandboxID : String) :
    Option String × List ClientCall :=
  ((client.stopPod podSandboxID).2.2, [.stopPodCall podSandboxID])

/-- Embedding of `Runtime.DeletePodSandbox` (`hyper.go:128-136`): a single
removal request whose error, if any, is returned unchanged. -/
def deletePodSandbox (client : HyperClient) (podSandboxID : String) :
    Option String :=
  match client.removePod podSandboxID with
  | .error e => some e
  | .ok _ => none

/-- Embedding of `Runtime.Status` (`hyper.go:67-86`): always returns a nil
error and two conditions; NetworkReady is always true, RuntimeReady is
true unless the version query fails, in which case it carries the reason
`HyperDaemonNotReady` and a message wrapping the underlying error. -/
def runtimeStatus (client : HyperClient) : RuntimeStatus × Option String :=
  let runtimeReady : RuntimeCondition :=
    match client.getVersion with
    | .ok _ => { condType := RuntimeReady, status := true, reason := none, message := none }
    | .error e =>
      { condType := RuntimeReady
        status := false
        reason := some "HyperDaemonNotReady"
        message := some ("hyper: failed to get hyper version: " ++ e) }
  let networkReady : RuntimeCondition :=
    { condType := NetworkReady, status := true, reason := none, message := none }
  ({ conditions := [runtimeReady, networkReady] }, none)

/-- Inert collaborator used as the base of the concrete clients the
witnesses and counterexamples instantiate the theorems with. -/
def idleClient : HyperClient :=
  { createPod := fun _ => .error "unavailable"
    startPod := fun _ => .error "unavailable"
    removePod := fun _ => .ok ()
    stopPod := fun _ => (0, "", none)
    getPodInfo := fun _ => .error "unavailable"
    getPodList := .error "unavailable"
    getVersion := .ok ("1.0.0", "0.1.0") }

/-- Sample sandbox configuration used to instantiate the lifecycle
theorems. -/
def sampleConfig : PodSandboxConfig :=
  { metadata := ⟨"name", "ns", "uid", 0⟩, labels := [], annotations := [] }

/-- Sample spec-building step that always succeeds. -/
def sampleBuild : PodSandboxConfig → Except String UserPod :=
  fun _ => .ok ⟨"pod", []⟩

/-- Collaborator whose create succeeds, whose start fails and whose
compensating remove also fails. -/
def startFailClient : HyperClient :=
  { idleClient with
    createPod := fun _ => .ok "pid1"
    startPod := fun _ => .error "startfail"
    removePod := fun _ => .error "removefail" }

/-- Collaborator whose create fails outright. -/
def createFailClient : HyperClient :=
  { idleClient with createPod := fun _ => .error "createfail" }

/-- Collaborator whose stop fails with a rich diagnostic code and cause. -/
def stopClientA : HyperClient :=
  { idleClient with stopPod := fun _ => (42, "vm busy", some "boom") }

/-- Collaborator whose stop fails with the same underlying error but a
different diagnostic code and cause. -/
def stopClientB : HyperClient :=
  { idleClient with stopPod := fun _ => (0, "", some "boom") }

/-- Collaborator listing a single pod whose encoded name is malformed. -/
def badNameClient : HyperClient :=
  { idleClient with getPodList := .ok [⟨"pod1", "bad", "running", [], 5⟩] }

/-- Collaborator listing a single pod whose metadata map carries a
marker key. -/
def markerListClient : HyperClient :=
  { idleClient with
    getPodList := .ok [⟨"pod1", "a_b_c_0", "running", [("annotation.color", "blue")], 5⟩] }

/-- Collaborator exposing one pod record for the single-status query,
with a metadata map holding one plain and one marker key. -/
def infoClient : HyperClient :=
  { idleClient with
    getPodInfo := fun _ =>
      .ok ⟨"a_b_c_0", "running", ["10.0.0.5"], [("k", "v"), ("annotation.a", "w")], 1000⟩
    getPodList := .ok [⟨"pod1", "a_b_c_0", "running", [("k", "v")], 1000⟩] }

/-- Collaborator listing two pods, one running and one pending, used to
exercise the filter clauses. -/
def listClient : HyperClient :=
  { idleClient with
    getPodList := .ok
      [⟨"pod1", "a_b_c_0", "running", [("k", "v")], 10⟩,
       ⟨"pod2", "a_b_d_1", "pending", [("k", "w")], 20⟩] }

/-- Collaborator listing three pods with creation times 30, 10 and 20,
the last two sharing no timestamp and the first two of equal id prefix,
used to exercise the sorter. -/
def sortClient : HyperClient :=
  { idleClient with
    getPodList := .ok
      [⟨"pod1", "a_b_c_0", "running", [], 30⟩,
       ⟨"pod2", "a_b_d_0", "running", [], 10⟩,
       ⟨"pod3", "a_b_e_0", "running", [], 10⟩,
       ⟨"pod4", "a_b_f_0", "running", [], 20⟩] }

/-- Collaborator whose version query fails. -/
def versionFailClient : HyperClient :=
  { idleClient with getVersion := .error "connection refused" }

/-- Validity condition of the spec's name codec (§6, §9): individual
identity fields do not contain the fixed field separator. -/
def validMetadata (m : SandboxMetadata) : Prop :=
  '_' ∉ m.name.data ∧ '_' ∉ m.namespace_.data ∧ '_' ∉ m.uid.data

/-- Splitting a separator-free chunk yields just that chunk. -/
theorem splitChar_not_mem {sep : Char} {xs : List Char} (h : sep ∉ xs) :
    splitChar sep xs = [xs] := by
  induction xs with
  | nil => rfl
  | cons c cs ih =>
    simp only [List.mem_cons, not_or] at h
    obtain ⟨h1, h2⟩ := h
    have h1' : ¬c = sep := fun hc => h1 hc.symm
    simp [splitChar, ih h2, h1']

/-- Splitting peels off a leading separator-free chunk at its terminating
separator. -/
theorem splitChar_append {sep : Char} {xs : List Char} (ys : List Char)
    (h : sep ∉ xs) :
    splitChar sep (xs ++ sep :: ys) = xs :: splitChar sep ys := by
  induction xs with
  | nil => simp [splitChar]
  | cons c cs ih =>
    simp only [List.mem_cons, not_or] at h
    obtain ⟨h1, h2⟩ := h
    have h1' : ¬c = sep := fun hc => h1 hc.symm
    simp [splitChar, ih h2, h1']

/-- Decimal digit characters decode back to the digit they render. -/
theorem digit_char_spec {d : Nat} (h : d < 10) :
    (Char.ofNat (d + 48)).isDigit = true ∧ charToDigit (Char.ofNat (d + 48)) = d := by
  interval_cases d <;> exact ⟨by decide, by decide⟩

/-- Every character of a rendered natural number is a decimal digit. -/
theorem natChars_all_digit (n : Nat) : ∀ c ∈ natChars n, c.isDigit = true := by
  intro c hc
  unfold natChars at hc
  by_cases h0 : n = 0
  · simp [h0] at hc
    simp [hc]
  · simp only [h0, if_false, List.mem_reverse, List.mem_map] at hc
    obtain ⟨d, hd, rfl⟩ := hc
    exact (digit_char_spec (Nat.digits_lt_base (by norm_num) hd)).1

/-- The field separator is not a digit, hence never occurs in a rendered
attempt counter. -/
theorem underscore_not_mem_natChars (n : Nat) : '_' ∉ natChars n := by
  intro h
  have := natChars_all_digit n '_' h
  exact absurd this (by decide)

/-- Parsing inverts the decimal rendering of a natural number. -/
theorem parseDecimal_natChars (n : Nat) : parseDecimal (natChars n) = some n := by
  by_cases h0 : n = 0
  · subst h0; decide
  · have hne : natChars n ≠ [] := by
      unfold natChars
      simp only [h0, if_false]
      simp [Nat.digits_ne_nil_iff_ne_zero, h0]
    have hall : (natChars n).all Char.isDigit = true :=
      List.all_eq_true.mpr (natChars_all_digit n)
    unfold parseDecimal
    rw [if_neg hne, if_pos hall]
    congr 1
    unfold natChars
    simp only [h0, if_false]
    rw [List.map_reverse, List.reverse_reverse, List.map_map]
    have hmap : (Nat.digits 10 n).map (charToDigit ∘ fun d => Char.ofNat (d + 48)) =
        Nat.digits 10 n := by
      rw [List.map_congr_left, List.map_id]
      intro d hd
      exact (digit_char_spec (Nat.digits_lt_base (by norm_num) hd)).2
    rw [hmap, Nat.ofDigits_digits]

/-- C1: for every valid SandboxMetadata (fields free of the separator,
non-negative attempt) decoding the encoded sandbox name yields the
metadata back exactly, and a token with the wrong number of
separator-delimited fields, or whose attempt field is not a non-negative
decimal integer, is rejected with an error rather than decoded into
partially-wrong metadata. -/
theorem sandboxName_codec_roundtrip_and_rejects :
    (∀ m : SandboxMetadata, validMetadata m →
      parseSandboxName (buildSandboxName m) = .ok m) ∧
    (∀ s : String, (splitChar '_' s.data).length ≠ 4 →
      parseSandboxName s = .error ("invalid sandbox name: " ++ s)) ∧
    (∀ s : String, ∀ ns n uid att : List Char,
      splitChar '_' s.data = [ns, n, uid, att] → parseDecimal att = none →
      parseSandboxName s = .error ("invalid sandbox name: " ++ s)) := by
  refine ⟨?_, ?_, ?_⟩
  · rintro m ⟨h1, h2, h3⟩
    have hdata : (buildSandboxName m).data =
        m.namespace_.data ++ '_' :: (m.name.data ++ '_' :: (m.uid.data
          ++ '_' :: natChars m.attempt)) := rfl
    simp only [parseSandboxName, hdata]
    rw [splitChar_append _ h2, splitChar_append _ h1, splitChar_append _ h3,
      splitChar_not_mem (underscore_not_mem_natChars m.attempt)]
    simp [parseDecimal_natChars]
  · intro s h
    simp only [parseSandboxName]
    rcases hl : splitChar '_' s.data with _ | ⟨a, _ | ⟨b, _ | ⟨c, _ | ⟨d, _ | ⟨e, t⟩⟩⟩⟩⟩ <;>
      simp_all
  · intro s ns n uid att hsplit hparse
    simp only [parseSandboxName]
    rw [hsplit]
    simp [hparse]

/-- Witness for C1 at concrete inputs: the metadata
`(podname, ns, uid123, attempt 3)` round-trips, the two-field token
`a_b` is rejected, and the token `a_b_c_x` with a non-numeric attempt is
rejected. -/
theorem sandboxName_codec_witness :
    parseSandboxName (buildSandboxName ⟨"podname", "ns", "uid123", 3⟩) =
      .ok ⟨"podname", "ns", "uid123", 3⟩ ∧
    parseSandboxName "a_b" = .error ("invalid sandbox name: " ++ "a_b") ∧
    parseSandboxName "a_b_c_x" = .error ("invalid sandbox name: " ++ "a_b_c_x") :=
  ⟨sandboxName_codec_roundtrip_and_rejects.1 ⟨"podname", "ns", "uid123", 3⟩
     ⟨by decide, by decide, by decide⟩,
   sandboxName_codec_roundtrip_and_rejects.2.1 "a_b" (by decide),
   sandboxName_codec_roundtrip_and_rejects.2.2 "a_b_c_x" ['a'] ['b'] ['c'] ['x']
     (by decide) (by decide)⟩

/-- C4: the phase-to-state mapping is a total function into
{Ready, NotReady}; every phase string yields a defined state and every
unrecognized phase string maps to NotReady. -/
theorem toPodSandboxState_total_and_failsafe :
    ∀ p : String,
      (toPodSandboxState p = .ready ∨ toPodSandboxState p = .notReady) ∧
      (p ≠ "running" → toPodSandboxState p = .notReady) := by
  intro p
  unfold toPodSandboxState
  by_cases h : p = "running" <;> simp [h]

/-- Witness for C4 at the concrete unrecognized phase `pending`. -/
theorem toPodSandboxState_witness :
    (toPodSandboxState "pending" = .ready ∨ toPodSandboxState "pending" = .notReady) ∧
    toPodSandboxState "pending" = .notReady :=
  ⟨(toPodSandboxState_total_and_failsafe "pending").1,
   (toPodSandboxState_total_and_failsafe "pending").2 (by decide)⟩

/-- C2: for every config and collaborator behaviour, when create succeeds
and start fails the runtime removes the created pod exactly once and
returns the start error (never the removal error, whatever the removal
returns); when create fails its error is returned and neither start nor
remove is called. -/
theorem runPodSandbox_compensation (build : PodSandboxConfig → Except String UserPod)
    (client : HyperClient) (config : PodSandboxConfig) (userpod : UserPod)
    (hbuild : build config = .ok userpod) :
    (∀ podID e, client.createPod userpod = .ok podID →
      client.startPod podID = .error e →
      runPodSandbox build client config =
        (.error e, [.createPodCall userpod, .startPodCall podID, .removePodCall podID]) ∧
      (runPodSandbox build client config).2.count (.removePodCall podID) = 1) ∧
    (∀ e, client.createPod userpod = .error e →
      runPodSandbox build client config = (.error e, [.createPodCall userpod]) ∧
      ∀ podID, ClientCall.startPodCall podID ∉ (runPodSandbox build client config).2 ∧
        ClientCall.removePodCall podID ∉ (runPodSandbox build client config).2) := by
  constructor
  · intro podID e hc hs
    have hrun : runPodSandbox build client config =
        (.error e, [.createPodCall userpod, .startPodCall podID, .removePodCall podID]) := by
      simp only [runPodSandbox, hbuild, hc, hs]
    refine ⟨hrun, ?_⟩
    rw [hrun]
    simp [List.count_cons]
  · intro e hc
    have hrun : runPodSandbox build client config = (.error e, [.createPodCall userpod]) := by
      simp only [runPodSandbox, hbuild, hc]
    refine ⟨hrun, ?_⟩
    intro podID
    rw [hrun]
    simp

/-- Witness for C2: with a collaborator whose create yields `pid1`, whose
start fails with `startfail` and whose remove fails with `removefail`,
the start error is returned and the remove of `pid1` appears exactly once
in the trace; with a collaborator whose create fails with `createfail`,
that error is returned and no start or remove appears in the trace. -/
theorem runPodSandbox_compensation_witness :
    (runPodSandbox sampleBuild startFailClient sampleConfig =
      (.error "startfail",
        [.createPodCall ⟨"pod", []⟩, .startPodCall "pid1", .removePodCall "pid1"]) ∧
    (runPodSandbox sampleBuild startFailClient sampleConfig).2.count
      (.removePodCall "pid1") = 1) ∧
    (runPodSandbox sampleBuild createFailClient sampleConfig =
      (.error "createfail", [.createPodCall ⟨"pod", []⟩]) ∧
    ClientCall.startPodCall "pid1" ∉ (runPodSandbox sampleBuild createFailClient sampleConfig).2 ∧
    ClientCall.removePodCall "pid1" ∉
      (runPodSandbox sampleBuild createFailClient sampleConfig).2) :=
  ⟨(runPodSandbox_compensation sampleBuild startFailClient sampleConfig ⟨"pod", []⟩ rfl).1
      "pid1" "startfail" rfl rfl,
   ⟨((runPodSandbox_compensation sampleBuild createFailClient sampleConfig ⟨"pod", []⟩ rfl).2
      "createfail" rfl).1,
    ((runPodSandbox_compensation sampleBuild createFailClient sampleConfig ⟨"pod", []⟩ rfl).2
      "createfail" rfl).2 "pid1"⟩⟩

/-- C7 counterexample: the error `StopPodSandbox` returns does not carry
the engine's diagnostic code and cause.  Two collaborators whose stop
reports the same underlying error `boom` but different codes (42 vs 0)
and causes (`vm busy` vs empty) produce identical results, and neither
the code nor the cause occurs in the returned error text. -/
theorem stopPodSandbox_error_lacks_diagnostics :
    (stopClientA.stopPod "p").1 = 42 ∧
    (stopClientA.stopPod "p").2.1 = "vm busy" ∧
    (stopClientB.stopPod "p").1 = 0 ∧
    (stopClientB.stopPod "p").2.1 = "" ∧
    stopPodSandbox stopClientA "p" = (some "boom", [.stopPodCall "p"]) ∧
    stopPodSandbox stopClientA "p" = stopPodSandbox stopClientB "p" ∧
    ¬"vm busy".data <:+: "boom".data ∧
    ¬"42".data <:+: "boom".data := by
  refine ⟨rfl, rfl, rfl, rfl, rfl, rfl, by decide, by decide⟩

/-- C7 (amended): on a stop failure the error returned to the caller is
the engine's underlying error unchanged — the diagnostic code and cause
are only logged — and the engine stop primitive is invoked exactly once
(no retry inside this layer). -/
theorem stopPodSandbox_returns_raw_error_no_retry :
    ∀ (client : HyperClient) (podSandboxID : String),
      stopPodSandbox client podSandboxID =
        ((client.stopPod podSandboxID).2.2, [.stopPodCall podSandboxID]) ∧
      (stopPodSandbox client podSandboxID).2.count (.stopPodCall podSandboxID) = 1 := by
  intro client podSandboxID
  refine ⟨rfl, ?_⟩
  simp [stopPodSandbox, List.count_cons]

/-- C10: the runtime Status operation never fails: for every outcome of
the version query it returns a nil error and exactly two conditions, the
NetworkReady condition always true and the RuntimeReady condition true
iff the version query succeeded, carrying reason `HyperDaemonNotReady`
(and a message wrapping the underlying error) when it failed. -/
theorem runtimeStatus_never_fails :
    ∀ client : HyperClient, ∃ rc : RuntimeCondition,
      runtimeStatus client =
        ({ conditions := [rc, ⟨NetworkReady, true, none, none⟩] }, none) ∧
      rc.condType = RuntimeReady ∧
      (rc.status = true ↔ ∃ v, client.getVersion = .ok v) ∧
      (∀ e, client.getVersion = .error e →
        rc.reason = some "HyperDaemonNotReady" ∧
        rc.message = some ("hyper: failed to get hyper version: " ++ e)) := by
  intro client
  cases hv : client.getVersion with
  | ok v =>
    refine ⟨⟨RuntimeReady, true, none, none⟩, ?_, rfl, ?_, ?_⟩
    · simp [runtimeStatus, hv]
    · simp [hv]
    · intro e he
      exact Except.noConfusion he
  | error e =>
    refine ⟨⟨RuntimeReady, false, some "HyperDaemonNotReady",
        some ("hyper: failed to get hyper version: " ++ e)⟩, ?_, rfl, ?_, ?_⟩
    · simp [runtimeStatus, hv]
    · simp [hv]
    · intro e' he'
      injection he' with h
      subst h
      exact ⟨rfl, rfl⟩

/-- Witness for C10 at a collaborator whose version query fails with
`connection refused`. -/
theorem runtimeStatus_never_fails_witness :
    ∃ rc : RuntimeCondition,
      runtimeStatus versionFailClient =
        ({ conditions := [rc, ⟨NetworkReady, true, none, none⟩] }, none) ∧
      rc.condType = RuntimeReady ∧
      (rc.status = true ↔ ∃ v, versionFailClient.getVersion = .ok v) ∧
      (∀ e, versionFailClient.getVersion = .error e →
        rc.reason = some "HyperDaemonNotReady" ∧
        rc.message = some ("hyper: failed to get hyper version: " ++ e)) :=
  runtimeStatus_never_fails versionFailClient

/-- Helper: a record with an undecodable name anywhere in the engine list
makes the whole translation loop fail. -/
theorem listEntries_error_of_mem {fopt : Option PodSandboxFilter} :
    ∀ {pods : List PodListResult} {pod : PodListResult} {e : String},
      pod ∈ pods → parseSandboxName pod.podName = .error e →
      ∃ e', listEntries fopt pods = .error e' := by
  intro pods
  induction pods with
  | nil => intro pod e h; cases h
  | cons hd rest ih =>
    intro pod e hmem hparse
    rcases List.mem_cons.mp hmem with rfl | hmem'
    · exact ⟨e, by simp [listEntries, hparse]⟩
    · cases hp : parseSandboxName hd.podName with
      | error e'' => exact ⟨e'', by simp [listEntries, hp]⟩
      | ok m =>
        obtain ⟨e', he'⟩ := ih hmem' hparse
        cases hmatch : matchesFilter fopt hd (toPodSandboxState hd.status) with
        | true => exact ⟨e', by simp [listEntries, hp, hmatch, he']⟩
        | false => exact ⟨e', by simp [listEntries, hp, hmatch, he']⟩

/-- C3: whenever at least one record of the engine pod list has an
encoded name that fails to decode, ListPodSandbox returns an error and no
result sequence at all, whatever the supplied filter. -/
theorem listPodSandbox_aborts_on_bad_name :
    ∀ (client : HyperClient) (fopt : Option PodSandboxFilter)
      (pods : List PodListResult) (pod : PodListResult) (e : String),
      client.getPodList = .ok pods → pod ∈ pods →
      parseSandboxName pod.podName = .error e →
      ∃ e', listPodSandbox client fopt = .error e' := by
  intro client fopt pods pod e hlist hmem hparse
  obtain ⟨e', he'⟩ := @listEntries_error_of_mem fopt pods pod e hmem hparse
  exact ⟨e', by simp [listPodSandbox, hlist, he']⟩

/-- Witness for C3: a collaborator lists one pod whose encoded name `bad`
does not decode, under a filter whose id clause would have excluded that
pod anyway; the whole listing still fails. -/
theorem listPodSandbox_aborts_on_bad_name_witness :
    ∃ e', listPodSandbox badNameClient (some ⟨some "other", none, none⟩) = .error e' :=
  listPodSandbox_aborts_on_bad_name badNameClient (some ⟨some "other", none, none⟩)
    [⟨"pod1", "bad", "running", [], 5⟩] ⟨"pod1", "bad", "running", [], 5⟩
    ("invalid sandbox name: " ++ "bad") rfl (by decide) (by decide)

/-- Helper: the engine-filter check depends only on the record's id and
labels and on the mapped state. -/
theorem matchesFilter_congr (fopt : Option PodSandboxFilter)
    {pod pod' : PodListResult} {st st' : PodSandboxState}
    (hid : pod.podID = pod'.podID) (hlab : pod.labels = pod'.labels)
    (hst : st = st') :
    matchesFilter fopt pod st = matchesFilter fopt pod' st' := by
  cases fopt with
  | none => rfl
  | some f => simp only [matchesFilter, hid, hlab, hst]

/-- Helper: characterisation of the filter check as the conjunction of
its present clauses. -/
theorem matchesFilter_iff (fopt : Option PodSandboxFilter) (pod : PodListResult)
    (state : PodSandboxState) :
    matchesFilter fopt pod state = true ↔
      ∀ f, fopt = some f →
        (∀ i, f.id = some i → pod.podID = i) ∧
        (∀ st, f.state = some st → state = st) ∧
        (∀ sel, f.labelSelector = some sel →
          ∀ k v, (k, v) ∈ sel → List.lookup k pod.labels = some v) := by
  cases fopt with
  | none => simp [matchesFilter]
  | some f =>
    simp only [matchesFilter, Bool.and_eq_true]
    constructor
    · rintro ⟨⟨hid, hstate⟩, hsel⟩ f' hf'
      injection hf' with hf'
      subst hf'
      refine ⟨?_, ?_, ?_⟩
      · intro i hi
        rw [hi] at hid
        exact of_decide_eq_true hid
      · intro st hst
        rw [hst] at hstate
        exact of_decide_eq_true hstate
      · intro sel hsel'
        rw [hsel'] at hsel
        intro k v hkv
        exact of_decide_eq_true (List.all_eq_true.mp hsel (k, v) hkv)
    · intro h
      obtain ⟨h1, h2, h3⟩ := h f rfl
      refine ⟨⟨?_, ?_⟩, ?_⟩
      · cases hid : f.id with
        | none => rfl
        | some i => exact decide_eq_true (h1 i hid)
      · cases hst : f.state with
        | none => rfl
        | some st => exact decide_eq_true (h2 st hst)
      · cases hsel : f.labelSelector with
        | none => rfl
        | some sel =>
          apply List.all_eq_true.mpr
          rintro ⟨k, v⟩ hkv
          exact decide_eq_true (h3 sel hsel k v hkv)

/-- Helper: membership in the translated pre-sort list characterised by
origin, decodability and the filter check. -/
theorem listEntries_mem_iff {fopt : Option PodSandboxFilter} :
    ∀ {pods : List PodListResult} {items : List PodSandbox},
      listEntries fopt pods = .ok items →
      ∀ s : PodSandbox,
        (s ∈ items ↔ ∃ pod, pod ∈ pods ∧
          ∃ m, parseSandboxName pod.podName = .ok m ∧
            matchesFilter fopt pod (toPodSandboxState pod.status) = true ∧
            s = translatePod pod m (toPodSandboxState pod.status)) := by
  intro pods
  induction pods with
  | nil =>
    intro items h s
    simp only [listEntries] at h
    injection h with h
    subst h
    simp
  | cons hd rest ih =>
    intro items h s
    cases hp : parseSandboxName hd.podName with
    | error e => simp [listEntries, hp] at h
    | ok m =>
      cases hmatch : matchesFilter fopt hd (toPodSandboxState hd.status) with
      | false =>
        simp only [listEntries, hp, hmatch, Bool.false_eq_true, if_false] at h
        rw [ih h s]
        constructor
        · rintro ⟨pod, hmem, rest'⟩
          exact ⟨pod, List.mem_cons_of_mem hd hmem, rest'⟩
        · rintro ⟨pod, hmem, m', hp', hmatch', hs⟩
          rcases List.mem_cons.mp hmem with rfl | hmem'
          · rw [hp] at hp'
            injection hp' with hm
            rw [hmatch'] at hmatch
            cases hmatch
          · exact ⟨pod, hmem', m', hp', hmatch', hs⟩
      | true =>
        rcases hrest : listEntries fopt rest with e' | items'
        · simp [listEntries, hp, hmatch, hrest] at h
        · simp only [listEntries, hp, hmatch, hrest, if_true] at h
          injection h with h
          subst h
          rw [List.mem_cons]
          constructor
          · rintro (rfl | hs')
            · exact ⟨hd, List.mem_cons_self hd rest, m, hp, hmatch, rfl⟩
            · obtain ⟨pod, hmem', rest'⟩ := (ih hrest s).mp hs'
              exact ⟨pod, List.mem_cons_of_mem hd hmem', rest'⟩
          · rintro ⟨pod, hmem, m', hp', hmatch', hs⟩
            rcases List.mem_cons.mp hmem with rfl | hmem'
            · rw [hp] at hp'
              injection hp' with hm
              subst hm
              left
              exact hs
            · right
              exact (ih hrest s).mpr ⟨pod, hmem', m', hp', hmatch', hs⟩

/-- C6: a record of the engine pod list appears (translated) in the
ListPodSandbox result iff every clause present in the filter holds of it:
a present id clause forces id equality, a present state clause forces
equality with the mapped state, a present label selector forces every one
of its key/value pairs to be present with equal value in the record's
labels; an absent clause, or a wholly absent filter, imposes no
constraint. -/
theorem listPodSandbox_filter_semantics :
    ∀ (client : HyperClient) (fopt : Option PodSandboxFilter)
      (pods : List PodListResult) (out : List PodSandbox)
      (R : PodListResult) (m : SandboxMetadata),
      client.getPodList = .ok pods →
      listPodSandbox client fopt = .ok out →
      R ∈ pods → parseSandboxName R.podName = .ok m →
      (translatePod R m (toPodSandboxState R.status) ∈ out ↔
        ∀ f, fopt = some f →
          (∀ i, f.id = some i → R.podID = i) ∧
          (∀ st, f.state = some st → toPodSandboxState R.status = st) ∧
          (∀ sel, f.labelSelector = some sel →
            ∀ k v, (k, v) ∈ sel → List.lookup k R.labels = some v)) := by
  intro client fopt pods out R m hlist hout hmem hparse
  rcases hentries : listEntries fopt pods with e | items
  · simp [listPodSandbox, hlist, hentries] at hout
  · simp only [listPodSandbox, hlist, hentries] at hout
    injection hout with hout
    subst hout
    rw [← matchesFilter_iff fopt R (toPodSandboxState R.status)]
    have hperm : List.Perm (sortByCreatedAt items) items := List.perm_insertionSort createdAtLE items
    rw [hperm.mem_iff, listEntries_mem_iff hentries]
    constructor
    · rintro ⟨pod, hmem', m', hp', hmatch', heq⟩
      simp only [translatePod, PodSandbox.mk.injEq] at heq
      obtain ⟨hid, hmeta, hstate, hca, hlab⟩ := heq
      rw [matchesFilter_congr fopt hid hlab hstate]
      exact hmatch'
    · intro hm
      exact ⟨R, hmem, m, hparse, hm, rfl⟩

/-- Witness for C6: against a collaborator listing a running pod `pod1`
with label `k=v` and a pending pod `pod2`, under the filter
(id=pod1, state=Ready, selector {k:v}), the translated `pod1` entry is in
the result iff all three clauses hold of it. -/
theorem listPodSandbox_filter_semantics_witness :
    translatePod ⟨"pod1", "a_b_c_0", "running", [("k", "v")], 10⟩ ⟨"b", "a", "c", 0⟩
        (toPodSandboxState "running") ∈
      [⟨"pod1", ⟨"b", "a", "c", 0⟩, .ready, 10000000000, [("k", "v")]⟩] ↔
    ∀ f, (some ⟨some "pod1", some .ready, some [("k", "v")]⟩ : Option PodSandboxFilter) =
        some f →
      (∀ i, f.id = some i →
        (⟨"pod1", "a_b_c_0", "running", [("k", "v")], 10⟩ : PodListResult).podID = i) ∧
      (∀ st, f.state = some st → toPodSandboxState "running" = st) ∧
      (∀ sel, f.labelSelector = some sel →
        ∀ k v, (k, v) ∈ sel → List.lookup k [("k", "v")] = some v) := by
  have h := listPodSandbox_filter_semantics listClient
    (some ⟨some "pod1", some .ready, some [("k", "v")]⟩)
    [⟨"pod1", "a_b_c_0", "running", [("k", "v")], 10⟩,
     ⟨"pod2", "a_b_d_1", "pending", [("k", "w")], 20⟩]
    [⟨"pod1", ⟨"b", "a", "c", 0⟩, .ready, 10000000000, [("k", "v")]⟩]
    ⟨"pod1", "a_b_c_0", "running", [("k", "v")], 10⟩ ⟨"b", "a", "c", 0⟩
    rfl (by decide) (by decide) (by decide)
  exact h

/-- C5: the CreatedAt value of a single-status result, and of every entry
of a listing result, is exactly the engine record's second-granularity
creation time multiplied by 1,000,000,000, with no rounding. -/
theorem createdAt_nanosecond_exact :
    (∀ (client : HyperClient) (podSandboxID : String) (info : PodInfo)
      (st : PodSandboxStatus),
      client.getPodInfo podSandboxID = .ok info →
      podSandboxStatus client podSandboxID = .ok st →
      st.createdAt = info.createdAt * 1000000000) ∧
    (∀ (client : HyperClient) (fopt : Option PodSandboxFilter)
      (pods : List PodListResult) (out : List PodSandbox) (s : PodSandbox),
      client.getPodList = .ok pods →
      listPodSandbox client fopt = .ok out → s ∈ out →
      ∃ pod, pod ∈ pods ∧ s.id = pod.podID ∧
        s.createdAt = pod.createdAt * 1000000000) := by
  constructor
  · intro client podSandboxID info st hinfo hst
    cases hp : parseSandboxName info.podName with
    | error e => simp [podSandboxStatus, hinfo, hp] at hst
    | ok m =>
      simp only [podSandboxStatus, hinfo, hp] at hst
      injection hst with hst
      subst hst
      rfl
  · intro client fopt pods out s hlist hout hmem
    rcases hentries : listEntries fopt pods with e | items
    · simp [listPodSandbox, hlist, hentries] at hout
    · simp only [listPodSandbox, hlist, hentries] at hout
      injection hout with hout
      subst hout
      have hperm : List.Perm (sortByCreatedAt items) items := List.perm_insertionSort createdAtLE items
      have hmem' : s ∈ items := hperm.mem_iff.mp hmem
      obtain ⟨pod, hpmem, m, hp, hmatch, hs⟩ := (listEntries_mem_iff hentries s).mp hmem'
      subst hs
      exact ⟨pod, hpmem, rfl, rfl⟩

/-- Witness for C5: the single-status result for an engine record created
at second 1000 carries CreatedAt 1,000,000,000,000 and the listing entry
of a record created at second 1000 stems from a pod whose timestamp it
scales exactly. -/
theorem createdAt_nanosecond_exact_witness :
    (⟨"x", ⟨"b", "a", "c", 0⟩, .ready, "10.0.0.5", 1000000000000, [("k", "v")],
        [("a", "w")]⟩ : PodSandboxStatus).createdAt = (1000 : Int) * 1000000000 ∧
    ∃ pod, pod ∈ [(⟨"pod1", "a_b_c_0", "running", [("k", "v")], 1000⟩ : PodListResult)] ∧
      (⟨"pod1", ⟨"b", "a", "c", 0⟩, .ready, 1000000000000, [("k", "v")]⟩ : PodSandbox).id =
        pod.podID ∧
      (⟨"pod1", ⟨"b", "a", "c", 0⟩, .ready, 1000000000000, [("k", "v")]⟩ : PodSandbox).createdAt =
        pod.createdAt * 1000000000 :=
  ⟨createdAt_nanosecond_exact.1 infoClient "x"
      ⟨"a_b_c_0", "running", ["10.0.0.5"], [("k", "v"), ("annotation.a", "w")], 1000⟩
      ⟨"x", ⟨"b", "a", "c", 0⟩, .ready, "10.0.0.5", 1000000000000, [("k", "v")], [("a", "w")]⟩
      rfl (by decide),
   createdAt_nanosecond_exact.2 infoClient none
      [⟨"pod1", "a_b_c_0", "running", [("k", "v")], 1000⟩]
      [⟨"pod1", ⟨"b", "a", "c", 0⟩, .ready, 1000000000000, [("k", "v")]⟩]
      ⟨"pod1", ⟨"b", "a", "c", 0⟩, .ready, 1000000000000, [("k", "v")]⟩
      rfl (by decide) (by decide)⟩

/-- Helper: the sorter is stable — restricting its output to any one
creation timestamp reproduces the input's entries in their original
relative order. -/
theorem sortByCreatedAt_stable_filter (items : List PodSandbox) (t : Int) :
    (sortByCreatedAt items).filter (fun s => s.createdAt == t) =
      items.filter (fun s => s.createdAt == t) := by
  have hpair : (items.filter (fun s => s.createdAt == t)).Pairwise createdAtLE := by
    apply List.pairwise_of_forall_mem_list
    intro a ha b hb
    have ha' : a.createdAt = t := by
      have := (List.mem_filter.mp ha).2
      exact beq_iff_eq.mp this
    have hb' : b.createdAt = t := by
      have := (List.mem_filter.mp hb).2
      exact beq_iff_eq.mp this
    show a.createdAt ≤ b.createdAt
    rw [ha', hb']
  have hsub : (items.filter (fun s => s.createdAt == t)).Sublist (sortByCreatedAt items) :=
    List.sublist_insertionSort hpair (List.filter_sublist items)
  have hself : (items.filter (fun s => s.createdAt == t)).filter
      (fun s => s.createdAt == t) = items.filter (fun s => s.createdAt == t) :=
    List.filter_eq_self.mpr (fun a ha => (List.mem_filter.mp ha).2)
  have hsub2 : (items.filter (fun s => s.createdAt == t)).Sublist
      ((sortByCreatedAt items).filter (fun s => s.createdAt == t)) := by
    have := List.Sublist.filter (fun s => s.createdAt == t) hsub
    rwa [hself] at this
  have hperm : List.Perm (sortByCreatedAt items) items :=
    List.perm_insertionSort createdAtLE items
  have hlen : (items.filter (fun s => s.createdAt == t)).length =
      ((sortByCreatedAt items).filter (fun s => s.createdAt == t)).length :=
    (List.Perm.length_eq (List.Perm.filter (fun s => s.createdAt == t) hperm)).symm
  exact (List.Sublist.eq_of_length hsub2 hlen).symm

/-- C9: the sequence ListPodSandbox returns is the translated entry list
sorted by creation timestamp ascending; the sort is a permutation of the
entries and is stable, so entries with equal creation timestamps keep
their original relative order and repeated listings return the same
order. -/
theorem listPodSandbox_sorted_stable :
    ∀ (client : HyperClient) (fopt : Option PodSandboxFilter)
      (pods : List PodListResult) (items : List PodSandbox),
      client.getPodList = .ok pods → listEntries fopt pods = .ok items →
      listPodSandbox client fopt = .ok (sortByCreatedAt items) ∧
      List.Sorted createdAtLE (sortByCreatedAt items) ∧
      List.Perm (sortByCreatedAt items) items ∧
      ∀ t : Int, (sortByCreatedAt items).filter (fun s => s.createdAt == t) =
        items.filter (fun s => s.createdAt == t) := by
  intro client fopt pods items hlist hentries
  refine ⟨by simp [listPodSandbox, hlist, hentries], ?_,
    List.perm_insertionSort createdAtLE items,
    fun t => sortByCreatedAt_stable_filter items t⟩
  exact List.sorted_insertionSort createdAtLE items

/-- Witness for C9: four records with creation seconds 30, 10, 10, 20 are
returned sorted ascending, as a permutation of the translated entries,
and the two entries sharing second 10 keep their original relative
order. -/
theorem listPodSandbox_sorted_stable_witness :
    listPodSandbox sortClient none = .ok (sortByCreatedAt
      [⟨"pod1", ⟨"b", "a", "c", 0⟩, .ready, 30000000000, []⟩,
       ⟨"pod2", ⟨"b", "a", "d", 0⟩, .ready, 10000000000, []⟩,
       ⟨"pod3", ⟨"b", "a", "e", 0⟩, .ready, 10000000000, []⟩,
       ⟨"pod4", ⟨"b", "a", "f", 0⟩, .ready, 20000000000, []⟩]) ∧
    List.Sorted createdAtLE (sortByCreatedAt
      [⟨"pod1", ⟨"b", "a", "c", 0⟩, .ready, 30000000000, []⟩,
       ⟨"pod2", ⟨"b", "a", "d", 0⟩, .ready, 10000000000, []⟩,
       ⟨"pod3", ⟨"b", "a", "e", 0⟩, .ready, 10000000000, []⟩,
       ⟨"pod4", ⟨"b", "a", "f", 0⟩, .ready, 20000000000, []⟩]) ∧
    List.Perm (sortByCreatedAt
      [⟨"pod1", ⟨"b", "a", "c", 0⟩, .ready, 30000000000, []⟩,
       ⟨"pod2", ⟨"b", "a", "d", 0⟩, .ready, 10000000000, []⟩,
       ⟨"pod3", ⟨"b", "a", "e", 0⟩, .ready, 10000000000, []⟩,
       ⟨"pod4", ⟨"b", "a", "f", 0⟩, .ready, 20000000000, []⟩])
      [⟨"pod1", ⟨"b", "a", "c", 0⟩, .ready, 30000000000, []⟩,
       ⟨"pod2", ⟨"b", "a", "d", 0⟩, .ready, 10000000000, []⟩,
       ⟨"pod3", ⟨"b", "a", "e", 0⟩, .ready, 10000000000, []⟩,
       ⟨"pod4", ⟨"b", "a", "f", 0⟩, .ready, 20000000000, []⟩] ∧
    (sortByCreatedAt
      [⟨"pod1", ⟨"b", "a", "c", 0⟩, .ready, 30000000000, []⟩,
       ⟨"pod2", ⟨"b", "a", "d", 0⟩, .ready, 10000000000, []⟩,
       ⟨"pod3", ⟨"b", "a", "e", 0⟩, .ready, 10000000000, []⟩,
       ⟨"pod4", ⟨"b", "a", "f", 0⟩, .ready, 20000000000, []⟩]).filter
        (fun s => s.createdAt == (10000000000 : Int)) =
      [⟨"pod1", ⟨"b", "a", "c", 0⟩, .ready, 30000000000, []⟩,
       ⟨"pod2", ⟨"b", "a", "d", 0⟩, .ready, 10000000000, []⟩,
       ⟨"pod3", ⟨"b", "a", "e", 0⟩, .ready, 10000000000, []⟩,
       ⟨"pod4", ⟨"b", "a", "f", 0⟩, .ready, 20000000000, []⟩].filter
        (fun s => s.createdAt == (10000000000 : Int)) := by
  have h := listPodSandbox_sorted_stable sortClient none
    [⟨"pod1", "a_b_c_0", "running", [], 30⟩,
     ⟨"pod2", "a_b_d_0", "running", [], 10⟩,
     ⟨"pod3", "a_b_e_0", "running", [], 10⟩,
     ⟨"pod4", "a_b_f_0", "running", [], 20⟩]
    [⟨"pod1", ⟨"b", "a", "c", 0⟩, .ready, 30000000000, []⟩,
     ⟨"pod2", ⟨"b", "a", "d", 0⟩, .ready, 10000000000, []⟩,
     ⟨"pod3", ⟨"b", "a", "e", 0⟩, .ready, 10000000000, []⟩,
     ⟨"pod4", ⟨"b", "a", "f", 0⟩, .ready, 20000000000, []⟩]
    rfl (by decide)
  exact ⟨h.1, h.2.1, h.2.2.1, h.2.2.2 10000000000⟩

/-- Helper: a key formed by attaching the reserved marker carries it. -/
theorem hasMarker_append (k : String) : hasMarker (annotationMarker ++ k) = true := by
  show (annotationMarker.data.isPrefixOf (annotationMarker.data ++ k.data)) = true
  rw [List.isPrefixOf_iff_prefix]
  exact List.prefix_append _ _

/-- Helper: stripping undoes attaching the reserved marker. -/
theorem stripMarker_append (k : String) : stripMarker (annotationMarker ++ k) = k := by
  show String.mk ((annotationMarker.data ++ k.data).drop annotationMarker.data.length) = k
  rw [List.drop_left]

/-- Helper: a marker-carrying key is the marker followed by its stripped
form. -/
theorem append_stripMarker_of_hasMarker {k : String} (h : hasMarker k = true) :
    annotationMarker ++ stripMarker k = k := by
  rw [hasMarker, List.isPrefixOf_iff_prefix] at h
  obtain ⟨t, ht⟩ := h
  have hdata : (annotationMarker ++ stripMarker k).data = k.data := by
    show annotationMarker.data ++ k.data.drop annotationMarker.data.length = k.data
    rw [← ht, List.drop_left]
  calc annotationMarker ++ stripMarker k
      = String.mk ((annotationMarker ++ stripMarker k).data) := rfl
    _ = String.mk k.data := by rw [hdata]
    _ = k := rfl

/-- Helper: the labels view holds exactly the marker-free entries of the
metadata map, verbatim. -/
theorem mem_getKubeletLabels {m : List (String × String)} {k v : String} :
    (k, v) ∈ getKubeletLabels m ↔ ((k, v) ∈ m ∧ hasMarker k = false) := by
  unfold getKubeletLabels
  rw [List.mem_filter]
  simp [Bool.not_eq_true']

/-- Helper: the annotations view holds exactly the marker-carrying entries
of the metadata map, with the marker stripped. -/
theorem mem_getAnnotationsFromLabels {m : List (String × String)} {k v : String} :
    (k, v) ∈ getAnnotationsFromLabels m ↔ (annotationMarker ++ k, v) ∈ m := by
  unfold getAnnotationsFromLabels
  rw [List.mem_map]
  constructor
  · rintro ⟨⟨k', v'⟩, hmem, heq⟩
    obtain ⟨hmem', hmark⟩ := List.mem_filter.mp hmem
    have h1 : stripMarker k' = k := congrArg Prod.fst heq
    have h2 : v' = v := congrArg Prod.snd heq
    subst h2
    rw [← h1, append_stripMarker_of_hasMarker hmark]
    exact hmem'
  · intro hmem
    refine ⟨(annotationMarker ++ k, v), List.mem_filter.mpr ⟨hmem, hasMarker_append k⟩, ?_⟩
    rw [stripMarker_append]

/-- Helper: splitting inverts merging whenever the label keys are
marker-free. -/
theorem split_merge_roundtrip (l a : List (String × String))
    (hl : ∀ kv ∈ l, hasMarker kv.1 = false) :
    getKubeletLabels (mergeLabels l a) = l ∧
    getAnnotationsFromLabels (mergeLabels l a) = a := by
  constructor
  · unfold getKubeletLabels mergeLabels
    rw [List.filter_append]
    have h1 : l.filter (fun kv => !hasMarker kv.1) = l :=
      List.filter_eq_self.mpr (fun kv hkv => by rw [hl kv hkv]; decide)
    have h2 : (a.map fun kv => (annotationMarker ++ kv.1, kv.2)).filter
        (fun kv => !hasMarker kv.1) = [] := by
      rw [List.filter_eq_nil_iff]
      rintro ⟨k', v'⟩ hmem
      rw [List.mem_map] at hmem
      obtain ⟨⟨k0, v0⟩, _, heq⟩ := hmem
      have h1' : annotationMarker ++ k0 = k' := congrArg Prod.fst heq
      rw [← h1', hasMarker_append]
      decide
    rw [h1, h2, List.append_nil]
  · unfold getAnnotationsFromLabels mergeLabels
    rw [List.filter_append]
    have h1 : l.filter (fun kv => hasMarker kv.1) = [] := by
      rw [List.filter_eq_nil_iff]
      intro kv hkv
      rw [hl kv hkv]
      decide
    have h2 : (a.map fun kv => (annotationMarker ++ kv.1, kv.2)).filter
        (fun kv => hasMarker kv.1) = a.map fun kv => (annotationMarker ++ kv.1, kv.2) := by
      apply List.filter_eq_self.mpr
      rintro ⟨k', v'⟩ hmem
      rw [List.mem_map] at hmem
      obtain ⟨⟨k0, v0⟩, _, heq⟩ := hmem
      have h1' : annotationMarker ++ k0 = k' := congrArg Prod.fst heq
      rw [← h1']
      exact hasMarker_append k0
    rw [h1, h2, List.nil_append, List.map_map]
    have : ((fun kv : String × String => (stripMarker kv.1, kv.2)) ∘
        fun kv : String × String => (annotationMarker ++ kv.1, kv.2)) = id := by
      funext kv
      show (stripMarker (annotationMarker ++ kv.1), kv.2) = kv
      rw [stripMarker_append]
    rw [this, List.map_id]

/-- C8 counterexample: ListPodSandbox entries do not split the metadata
map.  Against a collaborator listing one pod whose metadata map holds the
marker-carrying key `annotation.color`, the returned entry's labels carry
that key verbatim (and entries have no annotations view at all), so a
marker-carrying key does not appear only in annotations with the marker
stripped. -/
theorem listPodSandbox_labels_carry_marker_keys :
    listPodSandbox markerListClient none =
      .ok [⟨"pod1", ⟨"b", "a", "c", 0⟩, .ready, 5000000000,
        [("annotation.color", "blue")]⟩] ∧
    hasMarker "annotation.color" = true ∧
    ("annotation.color", "blue") ∈
      ([("annotation.color", "blue")] : List (String × String)) := by
  refine ⟨by decide, by decide, by decide⟩

/-- C8 (amended): in PodSandboxStatus results the labels and annotations
views partition the engine's metadata map — an entry appears verbatim in
labels iff its key is marker-free, and an entry appears in annotations
(marker stripped) iff its marker-carrying form is in the map, so no entry
is routed to both views — and splitting inverts merging for all label and
annotation maps whose label keys are marker-free; ListPodSandbox entries,
by contrast, carry the engine's metadata map verbatim as labels, with no
annotations view and no marker handling. -/
theorem labels_annotations_partition_status_only :
    (∀ (client : HyperClient) (podSandboxID : String) (info : PodInfo)
      (st : PodSandboxStatus),
      client.getPodInfo podSandboxID = .ok info →
      podSandboxStatus client podSandboxID = .ok st →
      (∀ k v, (k, v) ∈ st.labels ↔ ((k, v) ∈ info.labels ∧ hasMarker k = false)) ∧
      (∀ k v, (k, v) ∈ st.annotations ↔ (annotationMarker ++ k, v) ∈ info.labels)) ∧
    (∀ l a : List (String × String), (∀ kv ∈ l, hasMarker kv.1 = false) →
      getKubeletLabels (mergeLabels l a) = l ∧
      getAnnotationsFromLabels (mergeLabels l a) = a) ∧
    (∀ (client : HyperClient) (fopt : Option PodSandboxFilter)
      (pods : List PodListResult) (out : List PodSandbox) (s : PodSandbox),
      client.getPodList = .ok pods → listPodSandbox client fopt = .ok out →
      s ∈ out → ∃ pod, pod ∈ pods ∧ s.labels = pod.labels) := by
  refine ⟨?_, split_merge_roundtrip, ?_⟩
  · intro client podSandboxID info st hinfo hst
    cases hp : parseSandboxName info.podName with
    | error e => simp [podSandboxStatus, hinfo, hp] at hst
    | ok m =>
      simp only [podSandboxStatus, hinfo, hp] at hst
      injection hst with hst
      subst hst
      exact ⟨fun k v => mem_getKubeletLabels, fun k v => mem_getAnnotationsFromLabels⟩
  · intro client fopt pods out s hlist hout hmem
    rcases hentries : listEntries fopt pods with e | items
    · simp [listPodSandbox, hlist, hentries] at hout
    · simp only [listPodSandbox, hlist, hentries] at hout
      injection hout with hout
      subst hout
      have hperm : List.Perm (sortByCreatedAt items) items :=
        List.perm_insertionSort createdAtLE items
      obtain ⟨pod, hpmem, m, hp, hmatch, hs⟩ :=
        (listEntries_mem_iff hentries s).mp (hperm.mem_iff.mp hmem)
      subst hs
      exact ⟨pod, hpmem, rfl⟩

/-- Witness for C8 (amended) at concrete inputs: the status split for a
map holding `k=v` and `annotation.a=w`, the round-trip for the disjoint
maps `{k:v}` and `{a:w}`, and a listing entry carrying its record's map
verbatim. -/
theorem labels_annotations_partition_witness :
    (("k", "v") ∈
        (⟨"x", ⟨"b", "a", "c", 0⟩, .ready, "10.0.0.5", 1000000000000, [("k", "v")],
          [("a", "w")]⟩ : PodSandboxStatus).labels ↔
      (("k", "v") ∈ [("k", "v"), ("annotation.a", "w")] ∧ hasMarker "k" = false)) ∧
    (("a", "w") ∈
        (⟨"x", ⟨"b", "a", "c", 0⟩, .ready, "10.0.0.5", 1000000000000, [("k", "v")],
          [("a", "w")]⟩ : PodSandboxStatus).annotations ↔
      (annotationMarker ++ "a", "w") ∈ [("k", "v"), ("annotation.a", "w")]) ∧
    getKubeletLabels (mergeLabels [("k", "v")] [("a", "w")]) = [("k", "v")] ∧
    getAnnotationsFromLabels (mergeLabels [("k", "v")] [("a", "w")]) = [("a", "w")] ∧
    ∃ pod, pod ∈ [(⟨"pod1", "a_b_c_0", "running", [("annotation.color", "blue")], 5⟩ :
        PodListResult)] ∧
      (⟨"pod1", ⟨"b", "a", "c", 0⟩, .ready, 5000000000,
        [("annotation.color", "blue")]⟩ : PodSandbox).labels = pod.labels := by
  have h1 := (labels_annotations_partition_status_only.1 infoClient "x"
    ⟨"a_b_c_0", "running", ["10.0.0.5"], [("k", "v"), ("annotation.a", "w")], 1000⟩
    ⟨"x", ⟨"b", "a", "c", 0⟩, .ready, "10.0.0.5", 1000000000000, [("k", "v")], [("a", "w")]⟩
    rfl (by decide))
  have h2 := labels_annotations_partition_status_only.2.1 [("k", "v")] [("a", "w")]
    (by decide)
  have h3 := labels_annotations_partition_status_only.2.2 markerListClient none
    [⟨"pod1", "a_b_c_0", "running", [("annotation.color", "blue")], 5⟩]
    [⟨"pod1", ⟨"b", "a", "c", 0⟩, .ready, 5000000000, [("annotation.color", "blue")]⟩]
    ⟨"pod1", ⟨"b", "a", "c", 0⟩, .ready, 5000000000, [("annotation.color", "blue")]⟩
    rfl (by decide) (by decide)
  exact ⟨h1.1 "k" "v", h1.2 "a" "w", h2.1, h2.2, h3⟩
